import Mathlib

/-!
Verification of the sharded PBFT ordering service
(`platform/consensus/execution/system_info.{h,cpp}`,
`platform/consensus/ordering/pbft/commitment.cpp`,
`platform/networkstrate/replica_communicator.cpp`)
against its natural-language specification.

The C++ state and operations are shallowly embedded: `std::unordered_map`
becomes an association list with first-match lookup, `std::vector` a `List`,
machine integers become `Nat` (with the `SIZE_MAX` / `UINT32_MAX` sentinels
kept explicit), and collaborator calls whose implementation is outside the
analysed sources (MessageManager, DuplicateManager, NewRequest) are modelled
from the specification, each marked `Modelled from the spec:`.
-/

namespace ResDB

/-- `SIZE_MAX` of the 64-bit C++ target. -/
def SIZE_MAX : Nat := 18446744073709551615

/-- `UINT32_MAX`, the sentinel `SystemInfo::GetShardOfNode` returns for an
unassigned node. -/
def UINT32_MAX : Nat := 4294967295

/-- `UINT_MAX` (32-bit unsigned int), the sentinel
`SystemInfo::GetPrimaryOfShard` returns when a shard has no primary. -/
def UINT_MAX : Nat := 4294967295

/-- First-match lookup in an association list; embeds
`std::unordered_map::find`. -/
def mapFind {κ α : Type} [DecidableEq κ] (m : List (κ × α)) (k : κ) : Option α :=
  match m with
  | [] => none
  | (k2, v) :: rest => if k2 = k then some v else mapFind rest k

/-- Insert-or-replace in an association list; embeds assignment through
`std::unordered_map::operator[]`. -/
def mapInsert {κ α : Type} [DecidableEq κ] (m : List (κ × α)) (k : κ) (v : α) :
    List (κ × α) :=
  match m with
  | [] => [(k, v)]
  | (k2, v2) :: rest =>
      if k2 = k then (k2, v) :: rest else (k2, v2) :: mapInsert rest k v

/-- `ReplicaInfo` proto: `(id, ip, port)`; the public key plays no role in the
verified operations. -/
structure ReplicaInfo where
  id : Nat
  ip : String
  port : Nat
  deriving Repr, DecidableEq

/-- The `SystemInfo` class state (`system_info.h`): shard bookkeeping fields
plus the replica roster, primary id and view. -/
structure SystemInfo where
  shard_count : Nat
  node_to_shard : List (Nat × Nat)
  shard_to_nodes : List (Nat × List Nat)
  shard_primaries : List (Nat × Nat)
  replicas : List ReplicaInfo
  primary_id : Nat
  view : Nat
  deriving Repr, DecidableEq

namespace SystemInfo

/-- `SystemInfo::GetShardCount`. -/
def GetShardCount (st : SystemInfo) : Nat := st.shard_count

/-- `SystemInfo::GetShardSize`: size of the node list of the shard, `0` when
the shard has no entry. -/
def GetShardSize (st : SystemInfo) (shard_id : Nat) : Nat :=
  match mapFind st.shard_to_nodes shard_id with
  | some l => l.length
  | none => 0

/-- `SystemInfo::GetNodesInShard`: the node list of the shard, `[]` when the
shard has no entry. -/
def GetNodesInShard (st : SystemInfo) (shard_id : Nat) : List Nat :=
  match mapFind st.shard_to_nodes shard_id with
  | some l => l
  | none => []

/-- `SystemInfo::GetShardOfNode`: shard of a node, `UINT32_MAX` when
unassigned. -/
def GetShardOfNode (st : SystemInfo) (node_id : Nat) : Nat :=
  match mapFind st.node_to_shard node_id with
  | some s => s
  | none => UINT32_MAX

/-- `SystemInfo::GetPrimaryOfShard`: primary (coordinator) of a shard,
`UINT_MAX` when the shard has none. -/
def GetPrimaryOfShard (st : SystemInfo) (shard_id : Nat) : Nat :=
  match mapFind st.shard_primaries shard_id with
  | some p => p
  | none => UINT_MAX

/-- `SystemInfo::SetShardCount`: stores the count and clears the three shard
maps (the replica roster, primary id and view are untouched). -/
def SetShardCount (st : SystemInfo) (count : Nat) : SystemInfo :=
  { st with
    shard_count := count
    node_to_shard := []
    shard_to_nodes := []
    shard_primaries := [] }

/-- The side effect of reading `shard_to_nodes_[i]` for `i = 0..n-1` through
`operator[]` inside `AddReplicaToShard`'s min-scan: every visited key gets a
(default-empty) entry. -/
def touchShards (m : List (Nat × List Nat)) : Nat → List (Nat × List Nat)
  | 0 => m
  | n + 1 =>
      let m2 := touchShards m n
      mapInsert m2 n ((mapFind m2 n).getD [])

/-- The min-scan of `AddReplicaToShard` over shard ids `0..n-1`:
`target`/`min_size` start at `(0, SIZE_MAX)` and are updated on every strict
improvement, scanned in increasing id order. Returns `(target, min_size)`. -/
def minShard (sz : Nat → Nat) : Nat → Nat × Nat
  | 0 => (0, SIZE_MAX)
  | n + 1 =>
      let acc := minShard sz n
      if sz n < acc.2 then (n, sz n) else acc

/-- Shard size as read by the min-scan (missing entry reads as the freshly
inserted empty vector). -/
def sizeAt (m : List (Nat × List Nat)) (i : Nat) : Nat :=
  ((mapFind m i).getD []).length

/-- The shard id selected by `AddReplicaToShard`'s min-scan. -/
def targetShard (st : SystemInfo) : Nat :=
  (minShard (sizeAt (touchShards st.shard_to_nodes st.shard_count))
    st.shard_count).1

/-- `SystemInfo::AddReplicaToShard`: refuses when `shard_count_ == 0`;
otherwise scans shards `0..shard_count_-1` for the smallest one (first wins on
ties), appends the replica to the roster, records its shard, appends its id to
the shard's node list, and designates it the shard's primary when the shard
has none. -/
def AddReplicaToShard (st : SystemInfo) (replica : ReplicaInfo) : SystemInfo :=
  if st.shard_count = 0 then st
  else
    let m1 := touchShards st.shard_to_nodes st.shard_count
    let target := targetShard st
    { st with
      replicas := st.replicas ++ [replica]
      node_to_shard := mapInsert st.node_to_shard replica.id target
      shard_to_nodes :=
        mapInsert m1 target (((mapFind m1 target).getD []) ++ [replica.id])
      shard_primaries :=
        match mapFind st.shard_primaries target with
        | none => mapInsert st.shard_primaries target replica.id
        | some _ => st.shard_primaries }

/-- `SystemInfo::AddReplica`: rejects malformed replicas (id 0, empty ip,
port 0) and duplicate ids, otherwise delegates to `AddReplicaToShard`. -/
def AddReplica (st : SystemInfo) (replica : ReplicaInfo) : SystemInfo :=
  if replica.id = 0 ∨ replica.ip = "" ∨ replica.port = 0 then st
  else if st.replicas.any (fun cur => cur.id = replica.id) then st
  else AddReplicaToShard st replica

end SystemInfo

/-- A call into the topology: the two mutating `SystemInfo` operations. -/
inductive TopoOp
  | setShardCount (count : Nat)
  | addReplica (replica : ReplicaInfo)
  deriving Repr, DecidableEq

/-- Apply one topology call. -/
def applyTopoOp (st : SystemInfo) : TopoOp → SystemInfo
  | .setShardCount c => st.SetShardCount c
  | .addReplica r => st.AddReplica r

/-- The default-constructed `SystemInfo` (empty maps and roster,
`primary_id_ = 1`, `view_ = 1`); `shard_count_` is left uninitialized by the
constructor so it is a parameter. -/
def initTopo (c0 : Nat) : SystemInfo :=
  { shard_count := c0
    node_to_shard := []
    shard_to_nodes := []
    shard_primaries := []
    replicas := []
    primary_id := 1
    view := 1 }

/-- Run a sequence of topology calls from the default-constructed state. -/
def runTopo (c0 : Nat) (ops : List TopoOp) : SystemInfo :=
  ops.foldl applyTopoOp (initTopo c0)

/-- The coordinator invariant: a shard's node list is nonempty exactly when
the shard has a primary entry, every primary is a member of its shard, and
the primary map has no duplicate keys. -/
def CoordInv (st : SystemInfo) : Prop :=
  (∀ s : Nat, (mapFind st.shard_to_nodes s).getD [] ≠ [] ↔
      (mapFind st.shard_primaries s).isSome = true) ∧
  (∀ s p, mapFind st.shard_primaries s = some p →
      p ∈ (mapFind st.shard_to_nodes s).getD []) ∧
  (st.shard_primaries.map Prod.fst).Nodup

open SystemInfo

/-- Modelled from the spec: `GetPrimaryOfNode(n)` of the MessageManager
(whose implementation is not among the analysed sources) "= coordinator of
its shard" (§4.1), i.e. the primary of the shard the node belongs to. -/
def GetPrimaryOfNode (st : SystemInfo) (node_id : Nat) : Nat :=
  GetPrimaryOfShard st (GetShardOfNode st node_id)

/-- Modelled from the spec: `NodesInSameShard(a, b)` of the MessageManager
(§4.1): the two nodes have the same shard assignment. -/
def NodesInSameShard (st : SystemInfo) (a b : Nat) : Bool :=
  GetShardOfNode st a = GetShardOfNode st b

/-- `Request.type` values used by the verified entry points. -/
inductive RType
  | NEW_REQUEST
  | PRE_PREPARE
  | PREPARE
  | COMMIT
  | RESPONSE
  deriving Repr, DecidableEq

/-- The `Request` proto fields read or written by the verified entry points;
`has_data_signature` abstracts whether the `data_signature` field is set. -/
structure Request where
  rtype : RType
  seq : Nat
  current_view : Nat
  sender_id : Nat
  primary_id : Nat
  proxy_id : Nat
  hash : String
  data : String
  has_data_signature : Bool
  ret : Int
  is_recovery : Bool
  deriving Repr, DecidableEq

/-- A default-constructed `Request` proto (all fields zero / empty). -/
def Request.blank : Request :=
  { rtype := .NEW_REQUEST
    seq := 0
    current_view := 0
    sender_id := 0
    primary_id := 0
    proxy_id := 0
    hash := ""
    data := ""
    has_data_signature := false
    ret := 0
    is_recovery := false }

/-- Modelled from the spec: `resdb::NewRequest(type, request, sender_id)`
(`transaction_utils`, not among the analysed sources) copies the request and
overrides its type and sender id. -/
def NewRequest (t : RType) (r : Request) (sender : Nat) : Request :=
  { r with rtype := t, sender_id := sender }

/-- Modelled from the spec: the `AddConsensusMsg` result codes of the
MessageStore (§4.3). -/
inductive CollectorResultCode
  | INVALID
  | OK
  | STATE_CHANGED
  deriving Repr, DecidableEq

/-- Modelled from the spec: the per-sequence phases (`TransactionStatue`)
of a SequenceSlot (§3). -/
inductive TransactionStatue
  | NONE
  | READY_PREPARE
  | READY_COMMIT
  | READY_EXECUTE
  | EXECUTED
  deriving Repr, DecidableEq

/-- Modelled from the spec: the DuplicateGuard state (§4.2), a content-hash
filter with a proposed set and an executed map `hash → seq`. -/
structure DupState where
  proposed : List String
  executed : List (String × Nat)
  deriving Repr, DecidableEq

/-- Modelled from the spec: `CheckIfExecuted(hash) → seq?` (§4.2); the C++
caller treats seq `0` as "not executed". -/
def checkIfExecuted (d : DupState) (h : String) : Nat :=
  (mapFind d.executed h).getD 0

/-- Modelled from the spec: `CheckAndMarkProposed(hash) → already?` (§4.2):
reports whether the hash was already proposed and marks it otherwise. -/
def checkAndAddProposed (d : DupState) (h : String) : Bool × DupState :=
  if h ∈ d.proposed then (true, d)
  else (false, { d with proposed := d.proposed ++ [h] })

/-- Modelled from the spec: `EraseProposed(hash)` (§4.2). -/
def eraseProposed (d : DupState) (h : String) : DupState :=
  { d with proposed := d.proposed.filter (fun x => x ≠ h) }

/-- The per-replica configuration read by `Commitment`: own id, the global
primary (`GetCurrentPrimary`), the shard topology backing the MessageManager
queries, the replica roster known to the `ReplicaCommunicator` (its
`replicas_`, as ids), and the current view. -/
structure Env where
  self_id : Nat
  current_primary : Nat
  topo : SystemInfo
  roster : List Nat
  current_view : Nat
  deriving Repr, DecidableEq

/-- Observable actions of one `Commitment` entry-point call. `broadcastAll`
is `ReplicaCommunicator::BroadCast`, which enqueues the message for every
replica in the communicator's roster. -/
inductive Eff
  | sendMsg (msg : Request) (dest : Nat)
  | broadcastAll (msg : Request)
  | sendResponse (msg : Request)
  | pushComplained (msg : Request)
  | addConsensus (msg : Request)
  | setNextSeq (v : Nat)
  | setHighestPrepared (v : Nat)
  deriving Repr, DecidableEq

/-- Return code, emitted actions (in order), and resulting DuplicateGuard
state of one entry-point call. -/
structure StepResult where
  ret : Int
  effs : List Eff
  dup : DupState
  deriving Repr, DecidableEq

/-- `Commitment::ProcessNewRequest` (commitment.cpp:67-158). Collaborator
results that are computed outside the analysed sources enter as parameters:
`has_signature` (the context carries a client signature), `sig_valid`
(`SignatureVerifier::VerifyMessage`), `pre_verify_ok` (the installed
`pre_verify_func_`, `true` when none), and `assigned_seq`
(`MessageManager::AssignNextSeq`, `none` on backpressure failure). -/
def ProcessNewRequest (env : Env) (dup : DupState)
    (has_signature sig_valid pre_verify_ok : Bool)
    (assigned_seq : Option Nat) (req : Request) : StepResult :=
  if has_signature = false then ⟨-2, [], dup⟩
  else
    let s := checkIfExecuted dup req.hash
    if s ≠ 0 then
      ⟨-2, [.sendResponse { req with seq := s }], dup⟩
    else if env.self_id ≠ GetPrimaryOfNode env.topo env.self_id then
      ⟨-3, [.sendMsg req (GetPrimaryOfNode env.topo env.self_id),
            .pushComplained req], dup⟩
    else if sig_valid = false then ⟨-2, [], dup⟩
    else if pre_verify_ok = false then ⟨-2, [], dup⟩
    else
      let pr := checkAndAddProposed dup req.hash
      if pr.1 then ⟨-2, [], pr.2⟩
      else
        match assigned_seq with
        | none =>
            let dup2 := eraseProposed pr.2 req.hash
            let resp : Request :=
              { Request.blank with
                rtype := .RESPONSE
                sender_id := env.self_id
                proxy_id := req.proxy_id
                ret := -2
                hash := req.hash }
            ⟨-2, [.sendMsg resp resp.proxy_id], dup2⟩
        | some sq =>
            let pp := { req with
              rtype := .PRE_PREPARE
              current_view := env.current_view
              seq := sq
              sender_id := env.self_id
              primary_id := env.self_id }
            ⟨0, (List.range (GetShardCount env.topo)).map
                  (fun i => .sendMsg pp (GetPrimaryOfShard env.topo i)),
             pr.2⟩

/-- `Commitment::ProcessProposeMsg` (commitment.cpp:161-263). Oracle
parameters: `is_faulty` (`Stats::IsFaulty`), `has_signature`, verification
results, `next_seq` (`MessageManager::GetNextSeq`), `acm` and `acm_ret`
(result of `MessageManager::AddConsensusMsg` and its `int` conversion), and
`tx_state` (`MessageManager::GetTransactionState` of the request's seq after
insertion). The inner-level broadcast reproduces the source's loop bound
`GetShardOfNode(GetShardSize(GetShardOfNode(self)))` verbatim. -/
def ProcessProposeMsg (env : Env) (dup : DupState)
    (is_faulty has_signature pre_verify_ok sig_valid : Bool)
    (next_seq : Nat) (acm : CollectorResultCode) (acm_ret : Int)
    (tx_state : TransactionStatue) (req : Request) : StepResult :=
  if NodesInSameShard env.topo req.sender_id env.self_id = false ∧
     env.self_id ≠ GetPrimaryOfNode env.topo env.self_id then
    let shard := GetShardOfNode env.topo env.self_id
    ⟨-3, [.sendMsg req (GetPrimaryOfShard env.topo shard)], dup⟩
  else if is_faulty = true ∨ has_signature = false then ⟨-2, [], dup⟩
  else if req.is_recovery then
    if next_seq = 0 ∨ req.seq = next_seq then
      ⟨acm_ret, [.setNextSeq (req.seq + 1), .addConsensus req], dup⟩
    else ⟨0, [], dup⟩
  else if req.sender_id ≠ env.current_primary ∧
          req.sender_id ≠ GetPrimaryOfNode env.topo env.self_id then
    ⟨-2, [], dup⟩
  else
    let checked : Option DupState :=
      if req.sender_id ≠ env.self_id then
        if pre_verify_ok = false then none
        else if sig_valid = false then none
        else
          let pr := checkAndAddProposed dup req.hash
          if pr.1 then none else some pr.2
      else some dup
    match checked with
    | none => ⟨-2, [], dup⟩
    | some dup1 =>
        let prepare_request :=
          { NewRequest .PREPARE req env.self_id with data := "" }
        let sends : List Eff :=
          if acm = .STATE_CHANGED then
            if tx_state = .READY_PREPARE then
              [.sendMsg prepare_request env.self_id] ++
              (if req.sender_id ≠ env.current_primary then
                 [.sendMsg prepare_request env.current_primary] else [])
            else
              let myShard := GetShardOfNode env.topo env.self_id
              let bound :=
                GetShardOfNode env.topo (GetShardSize env.topo myShard)
              (List.range bound).map
                (fun i => .sendMsg prepare_request
                  ((GetNodesInShard env.topo myShard).getD i 0))
          else []
        ⟨if acm = .INVALID then -2 else 0,
         [.addConsensus req] ++ sends, dup1⟩

/-- `Commitment::ProcessPrepareMsg` (commitment.cpp:266-330). Oracle
parameters as in `ProcessProposeMsg`, plus `need_qc`, `has_verifier`,
`sign_ok` (`SignatureVerifier::SignMessage` success) and `highest_prepared`
(`MessageManager::GetHighestPreparedSeq`). -/
def ProcessPrepareMsg (env : Env) (dup : DupState)
    (has_signature need_qc has_verifier sign_ok : Bool)
    (highest_prepared : Nat) (acm : CollectorResultCode) (acm_ret : Int)
    (tx_state : TransactionStatue) (req : Request) : StepResult :=
  if NodesInSameShard env.topo req.sender_id env.self_id = false ∧
     env.self_id ≠ GetPrimaryOfNode env.topo env.self_id then
    let shard := GetShardOfNode env.topo env.self_id
    ⟨-3, [.sendMsg req (GetPrimaryOfShard env.topo shard)], dup⟩
  else if has_signature = false then ⟨-2, [], dup⟩
  else if req.is_recovery then ⟨acm_ret, [.addConsensus req], dup⟩
  else
    let commit0 :=
      { NewRequest .COMMIT req env.self_id with has_data_signature := false }
    let seqv := req.seq
    if acm = .STATE_CHANGED then
      let hpEffs : List Eff :=
        if highest_prepared < seqv then [.setHighestPrepared seqv] else []
      if need_qc = true ∧ has_verifier = true ∧ sign_ok = false then
        ⟨-2, [.addConsensus req] ++ hpEffs, dup⟩
      else
        let commit_request :=
          if need_qc = true ∧ has_verifier = true then
            { commit0 with has_data_signature := true }
          else commit0
        let sends : List Eff :=
          if tx_state = .READY_COMMIT then
            if env.self_id = env.current_primary then
              [.broadcastAll commit_request]
            else []
          else
            let myShard := GetShardOfNode env.topo env.self_id
            (List.range (GetShardSize env.topo myShard)).map
              (fun i => .sendMsg commit_request
                ((GetNodesInShard env.topo myShard).getD i 0))
        ⟨if acm = .INVALID then -2 else 0,
         [.addConsensus req] ++ hpEffs ++ sends, dup⟩
    else ⟨if acm = .INVALID then -2 else 0, [.addConsensus req], dup⟩

/-- `Commitment::ProcessCommitMsg` (commitment.cpp:333-389). Oracle
parameters as in `ProcessPrepareMsg`. -/
def ProcessCommitMsg (env : Env) (dup : DupState)
    (has_signature : Bool) (acm : CollectorResultCode) (acm_ret : Int)
    (tx_state : TransactionStatue) (req : Request) : StepResult :=
  if NodesInSameShard env.topo req.sender_id env.self_id = false ∧
     env.self_id ≠ GetPrimaryOfNode env.topo env.self_id then
    let shard := GetShardOfNode env.topo env.self_id
    ⟨-3, [.sendMsg req (GetPrimaryOfShard env.topo shard)], dup⟩
  else if has_signature = false then ⟨-2, [], dup⟩
  else if req.is_recovery then ⟨acm_ret, [.addConsensus req], dup⟩
  else
    let sends : List Eff :=
      if acm = .STATE_CHANGED then
        if tx_state = .READY_EXECUTE then []
        else
          let myShard := GetShardOfNode env.topo env.self_id
          let members := GetNodesInShard env.topo myShard
          let propose_request := NewRequest .PRE_PREPARE req env.self_id
          let proposeSends :=
            (List.range (GetShardSize env.topo myShard)).filterMap
              (fun i =>
                if members.getD i 0 ≠ env.self_id then
                  some (Eff.sendMsg propose_request (members.getD i 0))
                else none)
          let prepare_request := NewRequest .PREPARE req env.self_id
          let prepareSends :=
            (List.range (GetShardSize env.topo myShard)).map
              (fun i => Eff.sendMsg prepare_request (members.getD i 0))
          proposeSends ++ prepareSends
      else []
    ⟨if acm = .INVALID then -2 else 0, [.addConsensus req] ++ sends, dup⟩

/-- Destinations to which a call's actions deliver a message of the given
type; a `broadcastAll` delivers to the whole roster
(`ReplicaCommunicator::BroadCast` feeds the queue sent to `replicas_`). -/
def destsOfType (roster : List Nat) (t : RType) : List Eff → List Nat
  | [] => []
  | .sendMsg m d :: rest =>
      (if m.rtype = t then [d] else []) ++ destsOfType roster t rest
  | .broadcastAll m :: rest =>
      (if m.rtype = t then roster else []) ++ destsOfType roster t rest
  | _ :: rest => destsOfType roster t rest

/-- The shard coordinators known to the topology: primaries of shards
`0..shard_count-1`. -/
def coordinatorIds (st : SystemInfo) : List Nat :=
  (List.range (GetShardCount st)).map (GetPrimaryOfShard st)

/-- Running `AddReplica` over a list of replicas after fixing the shard count
on a fresh topology: the "`k` successful `AddReplica` calls over a fixed
`shard_count = S` starting from the empty assignment" scenario. -/
def addSequence (S : Nat) (rs : List ReplicaInfo) : SystemInfo :=
  rs.foldl SystemInfo.AddReplica ((initTopo 0).SetShardCount S)

/-! Concrete fixtures used by witnesses and counterexamples. -/

/-- An empty DuplicateGuard. -/
def dup0 : DupState := ⟨[], []⟩

/-- A DuplicateGuard that has recorded hash `"h"` as executed at seq 5. -/
def dupExec : DupState := ⟨[], [("h", 5)]⟩

/-- A 2-shard topology: shard 0 = {1, 2} with coordinator 1, shard 1 = {3, 4}
with coordinator 3. -/
def topo24 : SystemInfo :=
  { shard_count := 2
    node_to_shard := [(1, 0), (2, 0), (3, 1), (4, 1)]
    shard_to_nodes := [(0, [1, 2]), (1, [3, 4])]
    shard_primaries := [(0, 1), (1, 3)]
    replicas := [⟨1, "a", 1⟩, ⟨2, "b", 2⟩, ⟨3, "c", 3⟩, ⟨4, "d", 4⟩]
    primary_id := 1
    view := 1 }

/-- Replica 1 (global primary and coordinator of shard 0) in `topo24`. -/
def envPrimary : Env :=
  { self_id := 1
    current_primary := 1
    topo := topo24
    roster := [1, 2, 3, 4]
    current_view := 1 }

/-- Replica 2 (a non-coordinator member of shard 0) in `topo24`. -/
def envSub : Env :=
  { self_id := 2
    current_primary := 1
    topo := topo24
    roster := [1, 2, 3, 4]
    current_view := 1 }

/-- A request from node 3 (shard 1), as seen by replica 2 of shard 0. -/
def reqCross : Request :=
  { Request.blank with
    rtype := .PRE_PREPARE
    seq := 1
    sender_id := 3
    proxy_id := 9
    hash := "h" }

/-- A PREPARE from node 2 to the global primary 1, seq 1. -/
def reqPrep : Request :=
  { Request.blank with
    rtype := .PREPARE
    seq := 1
    sender_id := 2
    proxy_id := 9
    hash := "h" }

/-- A fresh client request with hash `"h"` and proxy 9. -/
def reqNew : Request :=
  { Request.blank with rtype := .NEW_REQUEST, proxy_id := 9, hash := "h" }

/-- A 1-shard topology: shard 0 = {1, 2} with coordinator 1. -/
def topo12 : SystemInfo :=
  { shard_count := 1
    node_to_shard := [(1, 0), (2, 0)]
    shard_to_nodes := [(0, [1, 2])]
    shard_primaries := [(0, 1)]
    replicas := [⟨1, "a", 1⟩, ⟨2, "b", 2⟩]
    primary_id := 1
    view := 1 }

/-- Replica 1 (coordinator, global primary) in `topo12`. -/
def envInner : Env :=
  { self_id := 1
    current_primary := 1
    topo := topo12
    roster := [1, 2]
    current_view := 1 }

/-- The primary's own PRE_PREPARE, seq 1, in `topo12`. -/
def reqOwnPP : Request :=
  { Request.blank with
    rtype := .PRE_PREPARE
    seq := 1
    sender_id := 1
    primary_id := 1
    proxy_id := 9
    hash := "h" }

/-- A well-formed replica used by the `AddReplica` fixtures. -/
def replicaW : ReplicaInfo := ⟨7, "127.0.0.1", 10007⟩

/-- Replicas used by the balance witness. -/
def rsW : List ReplicaInfo := [⟨1, "a", 1⟩, ⟨2, "b", 2⟩, ⟨3, "c", 3⟩]

/-- Topology-call sequence used by the coordinator-invariant witness. -/
def opsW : List TopoOp :=
  [.setShardCount 2, .addReplica ⟨1, "a", 1⟩, .addReplica ⟨2, "b", 2⟩]

/-- C10: `GetShardSize` is total and agrees with the length of
`GetNodesInShard` on every shard id, including ids without an entry (where
they return `0` and `[]`). -/
theorem getShardSize_eq_length_getNodesInShard (st : SystemInfo) (s : Nat) :
    GetShardSize st s = (GetNodesInShard st s).length := by
  unfold GetShardSize GetNodesInShard
  cases mapFind st.shard_to_nodes s <;> rfl

/-! ### Association-list and min-scan lemmas -/

theorem mapFind_mapInsert {κ α : Type} [DecidableEq κ]
    (m : List (κ × α)) (k k2 : κ) (v : α) :
    mapFind (mapInsert m k v) k2 = if k = k2 then some v else mapFind m k2 := by
  induction m with
  | nil =>
      by_cases h2 : k = k2 <;> simp [mapInsert, mapFind, h2]
  | cons hd tl ih =>
      obtain ⟨k3, v3⟩ := hd
      by_cases h3 : k3 = k
      · subst h3
        by_cases h2 : k3 = k2 <;> simp [mapInsert, mapFind, h2]
      · by_cases h2 : k3 = k2
        · subst h2
          have hk : ¬ k = k3 := fun h => h3 h.symm
          simp [mapInsert, mapFind, h3, hk]
        · simp [mapInsert, mapFind, h3, h2, ih]

theorem getD_touchShards (m : List (Nat × List Nat)) (n i : Nat) :
    (mapFind (touchShards m n) i).getD [] = (mapFind m i).getD [] := by
  induction n with
  | zero => rfl
  | succ n ih =>
      show (mapFind (mapInsert (touchShards m n) n
        ((mapFind (touchShards m n) n).getD [])) i).getD [] = _
      rw [mapFind_mapInsert]
      by_cases h : n = i
      · subst h
        simpa using ih
      · simp only [if_neg h]
        exact ih

theorem sizeAt_touchShards (m : List (Nat × List Nat)) (n i : Nat) :
    sizeAt (touchShards m n) i = sizeAt m i := by
  unfold sizeAt
  rw [getD_touchShards]

theorem sizeAt_eq_getShardSize (st : SystemInfo) (i : Nat) :
    sizeAt st.shard_to_nodes i = GetShardSize st i := by
  unfold sizeAt GetShardSize
  cases mapFind st.shard_to_nodes i <;> rfl

/-- Characterization of the min-scan: either no scanned size beat the
`SIZE_MAX` sentinel, or the result is the first index attaining the minimal
scanned size. -/
theorem minShard_spec (sz : Nat → Nat) (n : Nat) :
    (minShard sz n = (0, SIZE_MAX) ∧ ∀ i, i < n → SIZE_MAX ≤ sz i) ∨
    ((minShard sz n).1 < n ∧ (minShard sz n).2 = sz (minShard sz n).1 ∧
     (minShard sz n).2 < SIZE_MAX ∧
     (∀ i, i < n → (minShard sz n).2 ≤ sz i) ∧
     (∀ i, i < (minShard sz n).1 → (minShard sz n).2 < sz i)) := by
  induction n with
  | zero =>
      left
      exact ⟨rfl, fun i h => absurd h (Nat.not_lt_zero i)⟩
  | succ n ih =>
      have hun : minShard sz (n + 1) =
          if sz n < (minShard sz n).2 then (n, sz n) else minShard sz n := rfl
      by_cases hlt : sz n < (minShard sz n).2
      · right
        rw [hun, if_pos hlt]
        have hszn : sz n < SIZE_MAX := by
          rcases ih with ⟨heq, _⟩ | ⟨_, _, hmax, _, _⟩
          · rw [heq] at hlt
            exact hlt
          · exact Nat.lt_trans hlt hmax
        refine ⟨Nat.lt_succ_self n, rfl, hszn, ?_, ?_⟩
        · intro i hi
          rcases Nat.lt_succ_iff_lt_or_eq.mp hi with hi2 | hi2
          · rcases ih with ⟨heq, hall⟩ | ⟨_, _, _, hmin, _⟩
            · have := hall i hi2
              omega
            · have := hmin i hi2
              omega
          · subst hi2
            exact Nat.le_refl _
        · intro i hi
          rcases ih with ⟨heq, hall⟩ | ⟨_, _, _, hmin, _⟩
          · have := hall i hi
            omega
          · have := hmin i hi
            omega
      · rw [hun, if_neg hlt]
        rcases ih with ⟨heq, hall⟩ | ⟨h1, h2, h3, h4, h5⟩
        · left
          refine ⟨heq, fun i hi => ?_⟩
          rcases Nat.lt_succ_iff_lt_or_eq.mp hi with hi2 | hi2
          · exact hall i hi2
          · subst hi2
            rw [heq] at hlt
            omega
        · right
          refine ⟨Nat.lt_succ_of_lt h1, h2, h3, ?_, h5⟩
          intro i hi
          rcases Nat.lt_succ_iff_lt_or_eq.mp hi with hi2 | hi2
          · exact h4 i hi2
          · subst hi2
            omega

/-- With a nonzero shard count and all scanned sizes below `SIZE_MAX`,
`targetShard` is the smallest index of a minimum-size shard. -/
theorem targetShard_is_least_argmin (st : SystemInfo)
    (hS : 1 ≤ st.shard_count)
    (hsmall : ∀ i, i < st.shard_count → GetShardSize st i < SIZE_MAX) :
    targetShard st < st.shard_count ∧
    (∀ i, i < st.shard_count →
      GetShardSize st (targetShard st) ≤ GetShardSize st i) ∧
    (∀ i, i < targetShard st →
      GetShardSize st (targetShard st) < GetShardSize st i) := by
  have hsz : ∀ i, sizeAt (touchShards st.shard_to_nodes st.shard_count) i =
      GetShardSize st i := by
    intro i
    rw [sizeAt_touchShards, sizeAt_eq_getShardSize]
  rcases minShard_spec (sizeAt (touchShards st.shard_to_nodes st.shard_count))
      st.shard_count with ⟨_, hall⟩ | ⟨h1, h2, _, h4, h5⟩
  · have h0 := hall 0 hS
    rw [hsz 0] at h0
    have := hsmall 0 hS
    omega
  · refine ⟨h1, ?_, ?_⟩
    · intro i hi
      have := h4 i hi
      rw [hsz i] at this
      rw [h2, hsz _] at this
      exact this
    · intro i hi
      have := h5 i hi
      rw [hsz i] at this
      rw [h2, hsz _] at this
      exact this

/-! ### Effect of one `AddReplicaToShard` on the observable shard maps -/

theorem getNodes_eq_getD (st : SystemInfo) (s : Nat) :
    GetNodesInShard st s = (mapFind st.shard_to_nodes s).getD [] := by
  unfold GetNodesInShard
  cases mapFind st.shard_to_nodes s <;> rfl

theorem nodes_addReplicaToShard (st : SystemInfo) (r : ReplicaInfo)
    (h : st.shard_count ≠ 0) (s : Nat) :
    GetNodesInShard (st.AddReplicaToShard r) s =
      if s = targetShard st then GetNodesInShard st s ++ [r.id]
      else GetNodesInShard st s := by
  rw [getNodes_eq_getD, getNodes_eq_getD]
  show (mapFind (SystemInfo.AddReplicaToShard st r).shard_to_nodes s).getD [] = _
  rw [SystemInfo.AddReplicaToShard, if_neg h]
  simp only
  rw [mapFind_mapInsert]
  by_cases hs : s = targetShard st
  · rw [if_pos hs.symm, if_pos hs]
    simp only [Option.getD_some]
    rw [getD_touchShards, hs]
  · rw [if_neg (fun hcon => hs hcon.symm), if_neg hs]
    exact getD_touchShards _ _ _

theorem size_addReplicaToShard (st : SystemInfo) (r : ReplicaInfo)
    (h : st.shard_count ≠ 0) (s : Nat) :
    GetShardSize (st.AddReplicaToShard r) s =
      if s = targetShard st then GetShardSize st s + 1
      else GetShardSize st s := by
  have hlen : ∀ st2 s2, GetShardSize st2 s2 = (GetNodesInShard st2 s2).length := by
    intro st2 s2
    unfold SystemInfo.GetShardSize SystemInfo.GetNodesInShard
    cases mapFind st2.shard_to_nodes s2 <;> rfl
  rw [hlen, hlen, nodes_addReplicaToShard st r h s]
  by_cases hs : s = targetShard st
  · rw [if_pos hs, if_pos hs]
    simp
  · rw [if_neg hs, if_neg hs]

theorem shardCount_addReplicaToShard (st : SystemInfo) (r : ReplicaInfo) :
    (st.AddReplicaToShard r).shard_count = st.shard_count := by
  rw [SystemInfo.AddReplicaToShard]
  by_cases h : st.shard_count = 0
  · rw [if_pos h]
  · rw [if_neg h]

theorem shardCount_addReplica (st : SystemInfo) (r : ReplicaInfo) :
    (st.AddReplica r).shard_count = st.shard_count := by
  rw [SystemInfo.AddReplica]
  by_cases h1 : r.id = 0 ∨ r.ip = "" ∨ r.port = 0
  · rw [if_pos h1]
  · rw [if_neg h1]
    by_cases h2 : st.replicas.any (fun cur => cur.id = r.id)
    · rw [if_pos h2]
    · rw [if_neg h2]
      exact shardCount_addReplicaToShard st r

/-- `AddReplica` either leaves the state unchanged or performs the
`shard_count ≠ 0` branch of `AddReplicaToShard`. -/
theorem addReplica_cases (st : SystemInfo) (r : ReplicaInfo) :
    st.AddReplica r = st ∨
    (st.shard_count ≠ 0 ∧ st.AddReplica r = st.AddReplicaToShard r) := by
  rw [SystemInfo.AddReplica]
  by_cases h1 : r.id = 0 ∨ r.ip = "" ∨ r.port = 0
  · left
    rw [if_pos h1]
  · rw [if_neg h1]
    by_cases h2 : st.replicas.any (fun cur => cur.id = r.id)
    · left
      rw [if_pos h2]
    · rw [if_neg h2]
      by_cases h3 : st.shard_count = 0
      · left
        rw [SystemInfo.AddReplicaToShard, if_pos h3]
      · right
        exact ⟨h3, rfl⟩

/-! ### C3: shard-load balance -/

/-- The balance-plus-bound invariant carried through the `AddReplica` fold. -/
theorem balance_fold (rs : List ReplicaInfo) :
    ∀ st n,
      (∀ i j, i < st.shard_count → j < st.shard_count →
        GetShardSize st i ≤ GetShardSize st j + 1) →
      (∀ i, i < st.shard_count → GetShardSize st i ≤ n) →
      n + rs.length ≤ SIZE_MAX →
      (∀ i j, i < (rs.foldl SystemInfo.AddReplica st).shard_count →
        j < (rs.foldl SystemInfo.AddReplica st).shard_count →
        GetShardSize (rs.foldl SystemInfo.AddReplica st) i ≤
        GetShardSize (rs.foldl SystemInfo.AddReplica st) j + 1) := by
  induction rs with
  | nil =>
      intro st n hbal _ _
      exact hbal
  | cons r rs ih =>
      intro st n hbal hbound hcap
      simp only [List.foldl_cons]
      rcases addReplica_cases st r with heq | ⟨hS, heq⟩
      · rw [heq]
        refine ih st (n + 1) hbal (fun i hi => ?_)
          (by simp only [List.length_cons] at hcap; omega)
        exact Nat.le_succ_of_le (hbound i hi)
      · rw [heq]
        have hsmall : ∀ i, i < st.shard_count → GetShardSize st i < SIZE_MAX := by
          intro i hi
          have := hbound i hi
          have : n < SIZE_MAX := by
            simp only [List.length_cons] at hcap
            omega
          omega
        obtain ⟨htlt, hmin, _⟩ :=
          targetShard_is_least_argmin st (Nat.one_le_iff_ne_zero.mpr hS) hsmall
        have hcount := shardCount_addReplicaToShard st r
        refine ih (st.AddReplicaToShard r) (n + 1) ?_ ?_
          (by simp only [List.length_cons] at hcap; omega)
        · intro i j hi hj
          rw [hcount] at hi hj
          rw [size_addReplicaToShard st r hS i, size_addReplicaToShard st r hS j]
          by_cases hit : i = targetShard st
          · rw [if_pos hit]
            by_cases hjt : j = targetShard st
            · rw [if_pos hjt, hit, hjt]
              omega
            · rw [if_neg hjt]
              have := hmin j hj
              rw [hit]
              omega
          · rw [if_neg hit]
            by_cases hjt : j = targetShard st
            · rw [if_pos hjt]
              have := hbal i j hi hj
              omega
            · rw [if_neg hjt]
              exact hbal i j hi hj
        · intro i hi
          rw [hcount] at hi
          rw [size_addReplicaToShard st r hS i]
          by_cases hit : i = targetShard st
          · rw [if_pos hit]
            exact Nat.succ_le_succ (hbound i hi)
          · rw [if_neg hit]
            exact Nat.le_succ_of_le (hbound i hi)

/-- C3: after any sequence of `AddReplica` calls over a fixed shard count
`S ≥ 1` starting from the empty assignment, any two shard sizes differ by at
most 1 (the number of calls is bounded by `SIZE_MAX`, the range of the
source's `size_t` counters). -/
theorem shard_load_balance (S : Nat) (rs : List ReplicaInfo)
    (_hS : 1 ≤ S) (hk : rs.length ≤ SIZE_MAX) :
    ∀ i, i < S → ∀ j, j < S →
      GetShardSize (addSequence S rs) i ≤ GetShardSize (addSequence S rs) j + 1 := by
  unfold addSequence
  intro i hi j hj
  have hcount : ∀ l : List ReplicaInfo, ∀ st : SystemInfo,
      (l.foldl SystemInfo.AddReplica st).shard_count = st.shard_count := by
    intro l
    induction l with
    | nil => intro st; rfl
    | cons r l ihl =>
        intro st
        show (l.foldl SystemInfo.AddReplica (st.AddReplica r)).shard_count = _
        rw [ihl, shardCount_addReplica]
  have h0 : ∀ s, GetShardSize ((initTopo 0).SetShardCount S) s = 0 := by
    intro s
    rfl
  have hbal := balance_fold rs ((initTopo 0).SetShardCount S) 0
    (fun a b _ _ => by rw [h0 a, h0 b]; omega)
    (fun a _ => by rw [h0 a])
    (by simpa using hk)
  have hc : (rs.foldl SystemInfo.AddReplica
      ((initTopo 0).SetShardCount S)).shard_count = S := by
    rw [hcount]
    rfl
  exact hbal i j (by rw [hc]; exact hi) (by rw [hc]; exact hj)

/-- Witness for C3 at `S = 2` with three concrete replicas. -/
theorem shard_load_balance_witness :
    GetShardSize (addSequence 2 rsW) 0 ≤ GetShardSize (addSequence 2 rsW) 1 + 1 :=
  shard_load_balance 2 rsW (by decide)
    (by unfold SIZE_MAX rsW; simp) 0 (by decide) 1 (by decide)

/-! ### C5: coordinator existence and membership -/

theorem keys_mapInsert {κ α : Type} [DecidableEq κ]
    (m : List (κ × α)) (k : κ) (v : α) :
    (mapInsert m k v).map Prod.fst =
      if k ∈ m.map Prod.fst then m.map Prod.fst else m.map Prod.fst ++ [k] := by
  induction m with
  | nil => simp [mapInsert]
  | cons hd tl ih =>
      obtain ⟨k2, v2⟩ := hd
      by_cases h2 : k2 = k
      · subst h2
        simp [mapInsert]
      · have hne : ¬ k = k2 := fun he => h2 he.symm
        by_cases hk : k ∈ tl.map Prod.fst
        · simp [mapInsert, h2, ih, hk, hne]
        · simp [mapInsert, h2, ih, hk, hne]

theorem nodup_keys_mapInsert {κ α : Type} [DecidableEq κ]
    (m : List (κ × α)) (k : κ) (v : α)
    (h : (m.map Prod.fst).Nodup) : ((mapInsert m k v).map Prod.fst).Nodup := by
  rw [keys_mapInsert]
  by_cases hk : k ∈ m.map Prod.fst
  · rw [if_pos hk]
    exact h
  · rw [if_neg hk]
    exact h.append (List.nodup_singleton k) (by simp [List.disjoint_singleton, hk])

theorem filter_nil_of_not_mem_keys {κ α : Type} [DecidableEq κ]
    (m : List (κ × α)) (k : κ) (h : k ∉ m.map Prod.fst) :
    m.filter (fun kv => kv.1 = k) = [] := by
  induction m with
  | nil => rfl
  | cons hd tl ih =>
      obtain ⟨k2, v2⟩ := hd
      simp only [List.map_cons, List.mem_cons] at h
      push_neg at h
      rw [List.filter_cons]
      have hne : ¬ (k2 = k) := fun he => h.1 he.symm
      rw [if_neg (by simpa using hne)]
      exact ih h.2

theorem filter_length_one_of_find {κ α : Type} [DecidableEq κ]
    (m : List (κ × α)) (k : κ) (v : α)
    (hn : (m.map Prod.fst).Nodup) (hf : mapFind m k = some v) :
    (m.filter (fun kv => kv.1 = k)).length = 1 := by
  induction m with
  | nil => exact absurd hf (by simp [mapFind])
  | cons hd tl ih =>
      obtain ⟨k2, v2⟩ := hd
      simp only [List.map_cons, List.nodup_cons] at hn
      by_cases h2 : k2 = k
      · subst h2
        rw [List.filter_cons]
        have hrest : tl.filter (fun kv => kv.1 = k2) = [] :=
          filter_nil_of_not_mem_keys tl k2 hn.1
        simp [hrest]
      · have hf2 : mapFind tl k = some v := by
          rw [mapFind, if_neg h2] at hf
          exact hf
        rw [List.filter_cons]
        rw [if_neg (by simpa using h2)]
        exact ih hn.2 hf2

theorem coordInv_initTopo (c0 : Nat) : CoordInv (initTopo c0) := by
  refine ⟨fun s => ?_, fun s p hp => ?_, ?_⟩
  · simp [initTopo, mapFind]
  · simp [initTopo, mapFind] at hp
  · simp [initTopo]

theorem coordInv_setShardCount (st : SystemInfo) (c : Nat) :
    CoordInv (st.SetShardCount c) := by
  refine ⟨fun s => ?_, fun s p hp => ?_, ?_⟩
  · simp [SystemInfo.SetShardCount, mapFind]
  · simp [SystemInfo.SetShardCount, mapFind] at hp
  · simp [SystemInfo.SetShardCount]

theorem coordInv_addReplicaToShard (st : SystemInfo) (r : ReplicaInfo)
    (h : CoordInv st) : CoordInv (st.AddReplicaToShard r) := by
  by_cases hS : st.shard_count = 0
  · rw [SystemInfo.AddReplicaToShard, if_pos hS]
    exact h
  · obtain ⟨h1, h2, h3⟩ := h
    rw [SystemInfo.AddReplicaToShard, if_neg hS]
    simp only
    have hnodes : ∀ s,
        (mapFind (mapInsert (touchShards st.shard_to_nodes st.shard_count)
          (targetShard st)
          ((mapFind (touchShards st.shard_to_nodes st.shard_count)
            (targetShard st)).getD [] ++ [r.id])) s).getD [] =
        if targetShard st = s then
          (mapFind st.shard_to_nodes s).getD [] ++ [r.id]
        else (mapFind st.shard_to_nodes s).getD [] := by
      intro s
      rw [mapFind_mapInsert]
      by_cases hs : targetShard st = s
      · rw [if_pos hs, if_pos hs]
        simp only [Option.getD_some]
        rw [getD_touchShards, hs]
      · rw [if_neg hs, if_neg hs]
        exact getD_touchShards _ _ _
    rcases hp : mapFind st.shard_primaries (targetShard st) with _ | p0
    · refine ⟨fun s => ?_, fun s p hps => ?_, ?_⟩
      · rw [hnodes s, mapFind_mapInsert]
        by_cases hs : targetShard st = s
        · rw [if_pos hs, if_pos hs]
          simp
        · rw [if_neg hs, if_neg hs]
          exact h1 s
      · rw [hnodes s]
        rw [mapFind_mapInsert] at hps
        by_cases hs : targetShard st = s
        · rw [if_pos hs] at hps
          rw [if_pos hs]
          cases hps
          simp
        · rw [if_neg hs] at hps
          rw [if_neg hs]
          exact h2 s p hps
      · exact nodup_keys_mapInsert st.shard_primaries (targetShard st) r.id h3
    · refine ⟨fun s => ?_, fun s p hps => ?_, h3⟩
      · rw [hnodes s]
        by_cases hs : targetShard st = s
        · rw [if_pos hs]
          constructor
          · intro _
            rw [← hs, hp]
            rfl
          · intro _
            simp
        · rw [if_neg hs]
          exact h1 s
      · rw [hnodes s]
        by_cases hs : targetShard st = s
        · rw [if_pos hs]
          rw [← hs] at hps
          have := h2 (targetShard st) p hps
          rw [hs] at this
          exact List.mem_append_left _ this
        · rw [if_neg hs]
          exact h2 s p hps

theorem coordInv_fold (ops : List TopoOp) :
    ∀ st, CoordInv st → CoordInv (ops.foldl applyTopoOp st) := by
  induction ops with
  | nil => exact fun st h => h
  | cons op ops ih =>
      intro st h
      simp only [List.foldl_cons]
      refine ih (applyTopoOp st op) ?_
      cases op with
      | setShardCount c => exact coordInv_setShardCount st c
      | addReplica r =>
          show CoordInv (st.AddReplica r)
          rcases addReplica_cases st r with heq | ⟨_, heq⟩
          · rw [heq]
            exact h
          · rw [heq]
            exact coordInv_addReplicaToShard st r h

/-- C5: in every state reachable by `SetShardCount` and `AddReplica` calls
from the default-constructed `SystemInfo`, a shard with at least one member
has exactly one `shard_primaries_` entry, and that coordinator is one of the
shard's members. -/
theorem coordinator_existence (c0 : Nat) (ops : List TopoOp) (s : Nat)
    (h : 1 ≤ GetShardSize (runTopo c0 ops) s) :
    ((runTopo c0 ops).shard_primaries.filter (fun kv => kv.1 = s)).length = 1 ∧
    GetPrimaryOfShard (runTopo c0 ops) s ∈ GetNodesInShard (runTopo c0 ops) s := by
  obtain ⟨h1, h2, h3⟩ := coordInv_fold ops (initTopo c0) (coordInv_initTopo c0)
  have hrt : List.foldl applyTopoOp (initTopo c0) ops = runTopo c0 ops := rfl
  rw [hrt] at h1 h2 h3
  have hne : (mapFind (runTopo c0 ops).shard_to_nodes s).getD [] ≠ [] := by
    intro hemp
    have hsz := sizeAt_eq_getShardSize (runTopo c0 ops) s
    unfold sizeAt at hsz
    rw [hemp] at hsz
    simp only [List.length_nil] at hsz
    omega
  have hsome := (h1 s).mp hne
  rcases hfind : mapFind (runTopo c0 ops).shard_primaries s with _ | p
  · rw [hfind] at hsome
    exact absurd hsome (by simp)
  · constructor
    · exact filter_length_one_of_find _ s p h3 hfind
    · have hmem := h2 s p hfind
      rw [getNodes_eq_getD]
      unfold SystemInfo.GetPrimaryOfShard
      rw [hfind]
      exact hmem

/-- Witness for C5 on a concrete call sequence. -/
theorem coordinator_existence_witness :
    ((runTopo 0 opsW).shard_primaries.filter (fun kv => kv.1 = 0)).length = 1 ∧
    GetPrimaryOfShard (runTopo 0 opsW) 0 ∈ GetNodesInShard (runTopo 0 opsW) 0 :=
  coordinator_existence 0 opsW 0 (by decide)

/-! ### C9: `SetShardCount` -/

/-- C9 counterexample: a state with an assigned replica on which
`SetShardCount(2)` does not fail but changes the state (claim says it should
leave all state unchanged). -/
theorem setShardCount_counterexample :
    1 ≤ GetShardSize (((initTopo 0).SetShardCount 1).AddReplica ⟨1, "a", 1⟩) 0 ∧
    (((initTopo 0).SetShardCount 1).AddReplica ⟨1, "a", 1⟩).SetShardCount 2 ≠
      ((initTopo 0).SetShardCount 1).AddReplica ⟨1, "a", 1⟩ := by
  decide

/-- C9 (amended): `SetShardCount(S)` never fails; in every state, also with
replicas already assigned, it stores the count and clears the node-to-shard,
shard-to-nodes and shard-primary maps, leaving the roster, primary id and
view untouched. -/
theorem setShardCount_spec (st : SystemInfo) (c : Nat) :
    (st.SetShardCount c).shard_count = c ∧
    (st.SetShardCount c).node_to_shard = [] ∧
    (st.SetShardCount c).shard_to_nodes = [] ∧
    (st.SetShardCount c).shard_primaries = [] ∧
    (st.SetShardCount c).replicas = st.replicas ∧
    (st.SetShardCount c).primary_id = st.primary_id ∧
    (st.SetShardCount c).view = st.view :=
  ⟨rfl, rfl, rfl, rfl, rfl, rfl, rfl⟩

/-! ### C4: `AddReplica` characterization -/

theorem replicas_addReplicaToShard (st : SystemInfo) (r : ReplicaInfo)
    (h : st.shard_count ≠ 0) :
    (st.AddReplicaToShard r).replicas = st.replicas ++ [r] := by
  rw [SystemInfo.AddReplicaToShard, if_neg h]

theorem nodeToShard_addReplicaToShard (st : SystemInfo) (r : ReplicaInfo)
    (h : st.shard_count ≠ 0) :
    (st.AddReplicaToShard r).node_to_shard =
      mapInsert st.node_to_shard r.id (targetShard st) := by
  rw [SystemInfo.AddReplicaToShard, if_neg h]

theorem primaries_addReplicaToShard (st : SystemInfo) (r : ReplicaInfo)
    (h : st.shard_count ≠ 0) :
    (st.AddReplicaToShard r).shard_primaries =
      match mapFind st.shard_primaries (targetShard st) with
      | none => mapInsert st.shard_primaries (targetShard st) r.id
      | some _ => st.shard_primaries := by
  rw [SystemInfo.AddReplicaToShard, if_neg h]

/-- C4 counterexample: on a state whose shard count is 0, a well-formed,
unregistered replica is not appended, against the claim's "otherwise it
appends the replica". -/
theorem addReplica_zero_shards_counterexample :
    replicaW.id ≠ 0 ∧ replicaW.ip ≠ "" ∧ replicaW.port ≠ 0 ∧
    (∀ c ∈ (initTopo 0).replicas, c.id ≠ replicaW.id) ∧
    ((initTopo 0).AddReplica replicaW).replicas ≠
      (initTopo 0).replicas ++ [replicaW] := by
  decide

/-- C4 (amended): `AddReplica` is a no-op on malformed input, duplicate ids,
and also when the shard count is 0; it is idempotent on repeated identical
input; and when the input is well-formed and fresh and the shard count is at
least 1 (sizes below the `size_t` sentinel), it appends the replica, places
it in the first minimum-size shard, and makes it coordinator exactly when
that shard had none. -/
theorem addReplica_characterization (st : SystemInfo) (r : ReplicaInfo) :
    ((r.id = 0 ∨ r.ip = "" ∨ r.port = 0) → st.AddReplica r = st) ∧
    ((∃ c ∈ st.replicas, c.id = r.id) → st.AddReplica r = st) ∧
    (st.shard_count = 0 → st.AddReplica r = st) ∧
    ((st.AddReplica r).AddReplica r = st.AddReplica r) ∧
    (¬(r.id = 0 ∨ r.ip = "" ∨ r.port = 0) →
     (∀ c ∈ st.replicas, c.id ≠ r.id) →
     1 ≤ st.shard_count →
     (∀ i, i < st.shard_count → GetShardSize st i < SIZE_MAX) →
       targetShard st < st.shard_count ∧
       (∀ i, i < st.shard_count →
         GetShardSize st (targetShard st) ≤ GetShardSize st i) ∧
       (∀ i, i < targetShard st →
         GetShardSize st (targetShard st) < GetShardSize st i) ∧
       (st.AddReplica r).replicas = st.replicas ++ [r] ∧
       GetNodesInShard (st.AddReplica r) (targetShard st) =
         GetNodesInShard st (targetShard st) ++ [r.id] ∧
       (∀ s, s ≠ targetShard st →
         GetNodesInShard (st.AddReplica r) s = GetNodesInShard st s) ∧
       GetShardOfNode (st.AddReplica r) r.id = targetShard st ∧
       (mapFind st.shard_primaries (targetShard st) = none →
         GetPrimaryOfShard (st.AddReplica r) (targetShard st) = r.id) ∧
       (∀ p, mapFind st.shard_primaries (targetShard st) = some p →
         GetPrimaryOfShard (st.AddReplica r) (targetShard st) = p)) := by
  refine ⟨?_, ?_, ?_, ?_, ?_⟩
  · intro hm
    rw [SystemInfo.AddReplica, if_pos hm]
  · intro hdup
    rw [SystemInfo.AddReplica]
    by_cases hm : r.id = 0 ∨ r.ip = "" ∨ r.port = 0
    · rw [if_pos hm]
    · rw [if_neg hm, if_pos (by simpa [List.any_eq_true] using hdup)]
  · intro h0
    rw [SystemInfo.AddReplica]
    by_cases hm : r.id = 0 ∨ r.ip = "" ∨ r.port = 0
    · rw [if_pos hm]
    · rw [if_neg hm]
      by_cases hd : st.replicas.any (fun cur => cur.id = r.id)
      · rw [if_pos hd]
      · rw [if_neg hd, SystemInfo.AddReplicaToShard, if_pos h0]
  · rcases addReplica_cases st r with heq | ⟨hS, heq⟩
    · rw [heq]
      exact heq
    · rw [heq]
      rw [SystemInfo.AddReplica]
      by_cases hm : r.id = 0 ∨ r.ip = "" ∨ r.port = 0
      · rw [if_pos hm]
      · rw [if_neg hm, if_pos ?_]
        rw [replicas_addReplicaToShard st r hS]
        simp
  · intro hm hdup hS1 hsmall
    have hS0 : st.shard_count ≠ 0 := by omega
    have hany : ¬ (st.replicas.any (fun cur => cur.id = r.id) = true) := by
      simp only [List.any_eq_true, decide_eq_true_eq]
      rintro ⟨c, hc, hce⟩
      exact hdup c hc hce
    have heq : st.AddReplica r = st.AddReplicaToShard r := by
      rw [SystemInfo.AddReplica, if_neg hm, if_neg hany]
    obtain ⟨ht, hmin, htie⟩ := targetShard_is_least_argmin st hS1 hsmall
    refine ⟨ht, hmin, htie, ?_, ?_, ?_, ?_, ?_, ?_⟩
    · rw [heq]
      exact replicas_addReplicaToShard st r hS0
    · rw [heq, nodes_addReplicaToShard st r hS0, if_pos rfl]
    · intro s hs
      rw [heq, nodes_addReplicaToShard st r hS0, if_neg hs]
    · rw [heq]
      unfold SystemInfo.GetShardOfNode
      rw [nodeToShard_addReplicaToShard st r hS0, mapFind_mapInsert, if_pos rfl]
    · intro hp
      rw [heq]
      unfold SystemInfo.GetPrimaryOfShard
      rw [primaries_addReplicaToShard st r hS0, hp]
      simp only
      rw [mapFind_mapInsert, if_pos rfl]
    · intro p hp
      rw [heq]
      unfold SystemInfo.GetPrimaryOfShard
      rw [primaries_addReplicaToShard st r hS0, hp]
      simp [hp]

/-- Witness for C4 on a concrete topology and replica. -/
theorem addReplica_characterization_witness :
    (topo24.AddReplica replicaW).replicas = topo24.replicas ++ [replicaW] :=
  ((addReplica_characterization topo24 replicaW).2.2.2.2
    (by decide) (by decide) (by decide) (by decide)).2.2.2.1

/-! ### C1: duplicate-executed requests replay the response -/

/-- C1: when the DuplicateGuard records the request's hash as executed with
seq `s ≠ 0`, `ProcessNewRequest` sets the request's seq to `s`, replays it as
the response to the proxy, touches no other state, and returns a negative
code — independently of the verifier outcomes and of `AssignNextSeq` (which
is never consulted: the result does not depend on `assigned_seq`). -/
theorem processNewRequest_duplicate_executed (env : Env) (dup : DupState)
    (sig_valid pre_verify_ok : Bool) (assigned_seq : Option Nat)
    (req : Request) (s : Nat)
    (hs : checkIfExecuted dup req.hash = s) (hne : s ≠ 0) :
    ProcessNewRequest env dup true sig_valid pre_verify_ok assigned_seq req =
      ⟨-2, [.sendResponse { req with seq := s }], dup⟩ ∧
    (ProcessNewRequest env dup true sig_valid pre_verify_ok
      assigned_seq req).ret < 0 := by
  have key : ProcessNewRequest env dup true sig_valid pre_verify_ok
      assigned_seq req = ⟨-2, [.sendResponse { req with seq := s }], dup⟩ := by
    simp only [ProcessNewRequest, hs]
    rw [if_neg (by simp), if_pos hne]
  refine ⟨key, ?_⟩
  rw [key]
  show (-2 : Int) < 0
  decide

/-- Witness for C1: replica 2 with hash `"h"` already executed at seq 5. -/
theorem processNewRequest_duplicate_executed_witness :
    ProcessNewRequest envSub dupExec true false false none reqNew =
      ⟨-2, [.sendResponse { reqNew with seq := 5 }], dupExec⟩ :=
  (processNewRequest_duplicate_executed envSub dupExec false false none reqNew 5
    (by decide) (by decide)).1

/-! ### C2: ingress routing -/

/-- C2: for each of the three consensus entry points, when the receiver is
not its shard's coordinator and the sender is not in the receiver's shard,
the message is forwarded unchanged to the receiver's shard coordinator, the
return code is -3, and nothing else happens (no consensus insertion, no
DuplicateGuard change) — independently of all collaborator oracles. -/
theorem ingress_routing_forwards (env : Env) (dup : DupState)
    (is_faulty has_signature pre_verify_ok sig_valid : Bool)
    (need_qc has_verifier sign_ok : Bool)
    (next_seq highest_prepared : Nat) (acm : CollectorResultCode)
    (acm_ret : Int) (tx_state : TransactionStatue) (req : Request)
    (hout : NodesInSameShard env.topo req.sender_id env.self_id = false)
    (hnc : env.self_id ≠ GetPrimaryOfNode env.topo env.self_id) :
    ProcessProposeMsg env dup is_faulty has_signature pre_verify_ok sig_valid
        next_seq acm acm_ret tx_state req =
      ⟨-3, [.sendMsg req (GetPrimaryOfShard env.topo
        (GetShardOfNode env.topo env.self_id))], dup⟩ ∧
    ProcessPrepareMsg env dup has_signature need_qc has_verifier sign_ok
        highest_prepared acm acm_ret tx_state req =
      ⟨-3, [.sendMsg req (GetPrimaryOfShard env.topo
        (GetShardOfNode env.topo env.self_id))], dup⟩ ∧
    ProcessCommitMsg env dup has_signature acm acm_ret tx_state req =
      ⟨-3, [.sendMsg req (GetPrimaryOfShard env.topo
        (GetShardOfNode env.topo env.self_id))], dup⟩ := by
  refine ⟨?_, ?_, ?_⟩
  · simp only [ProcessProposeMsg]
    rw [if_pos ⟨hout, hnc⟩]
  · simp only [ProcessPrepareMsg]
    rw [if_pos ⟨hout, hnc⟩]
  · simp only [ProcessCommitMsg]
    rw [if_pos ⟨hout, hnc⟩]

/-- Witness for C2: replica 2 (non-coordinator of shard 0) receiving a
message from node 3 (shard 1) forwards it to coordinator 1. -/
theorem ingress_routing_forwards_witness :
    ProcessProposeMsg envSub dup0 false true true true 0 .OK 0 .NONE reqCross =
      ⟨-3, [.sendMsg reqCross (GetPrimaryOfShard envSub.topo
        (GetShardOfNode envSub.topo envSub.self_id))], dup0⟩ :=
  (ingress_routing_forwards envSub dup0 false true true true false false false
    0 0 .OK 0 .NONE reqCross (by decide) (by decide)).1

/-! ### C6: backpressure rollback -/

/-- C6: when the request reaches sequence assignment (signed, not executed,
receiver is its shard's coordinator, verifications pass, hash not yet
proposed) and `AssignNextSeq` fails, the proposed mark is rolled back (guard
state exactly as before the call), a `TYPE_RESPONSE` with ret `-2` carrying
the request's hash is sent to the request's proxy, and the call returns a
negative code. -/
theorem backpressure_rollback (env : Env) (dup : DupState) (req : Request)
    (hexec : checkIfExecuted dup req.hash = 0)
    (hcoord : env.self_id = GetPrimaryOfNode env.topo env.self_id)
    (hnew : req.hash ∉ dup.proposed) :
    ProcessNewRequest env dup true true true none req =
      ⟨-2, [.sendMsg { Request.blank with
          rtype := .RESPONSE
          sender_id := env.self_id
          proxy_id := req.proxy_id
          ret := -2
          hash := req.hash } req.proxy_id], dup⟩ ∧
    (ProcessNewRequest env dup true true true none req).ret < 0 := by
  have hpr : checkAndAddProposed dup req.hash =
      (false, { dup with proposed := dup.proposed ++ [req.hash] }) := by
    unfold checkAndAddProposed
    rw [if_neg hnew]
  have hfilter : (dup.proposed ++ [req.hash]).filter
      (fun x => x ≠ req.hash) = dup.proposed := by
    rw [List.filter_append]
    have h1 : dup.proposed.filter (fun x => x ≠ req.hash) = dup.proposed := by
      rw [List.filter_eq_self]
      intro a ha
      simp only [ne_eq, decide_not, Bool.not_eq_true', decide_eq_false_iff_not]
      exact fun he => hnew (he ▸ ha)
    rw [h1]
    simp
  have herase : eraseProposed
      { dup with proposed := dup.proposed ++ [req.hash] } req.hash = dup := by
    unfold eraseProposed
    simp only
    rw [hfilter]
  have hc2 : ¬ (env.self_id ≠ GetPrimaryOfNode env.topo env.self_id) :=
    fun hcon => hcon hcoord
  have key : ProcessNewRequest env dup true true true none req =
      ⟨-2, [.sendMsg { Request.blank with
          rtype := .RESPONSE
          sender_id := env.self_id
          proxy_id := req.proxy_id
          ret := -2
          hash := req.hash } req.proxy_id], dup⟩ := by
    simp only [ProcessNewRequest, hexec, hpr, herase]
    rw [if_neg (by simp), if_neg (by simp), if_neg hc2,
      if_neg (by simp), if_neg (by simp), if_neg (by simp)]
  refine ⟨key, ?_⟩
  rw [key]
  show (-2 : Int) < 0
  decide

/-- Witness for C6: the coordinator (replica 1) with an empty guard and a
failed sequence assignment. -/
theorem backpressure_rollback_witness :
    ProcessNewRequest envPrimary dup0 true true true none reqNew =
      ⟨-2, [.sendMsg { Request.blank with
          rtype := .RESPONSE
          sender_id := envPrimary.self_id
          proxy_id := reqNew.proxy_id
          ret := -2
          hash := reqNew.hash } reqNew.proxy_id], dup0⟩ :=
  (backpressure_rollback envPrimary dup0 reqNew
    (by decide) (by decide) (by decide)).1

/-! ### C7: outer-level commit emission -/

/-- C7 counterexample: on the `STATE_CHANGED`/`READY_COMMIT` path the global
primary's COMMIT reaches node 2, which is not a shard coordinator — the
COMMIT is `BroadCast` to the whole roster, not "exactly the set of shard
coordinators" as claimed. -/
theorem prepare_outer_commit_counterexample :
    2 ∈ destsOfType envPrimary.roster .COMMIT
        (ProcessPrepareMsg envPrimary dup0 true false false false 0
          .STATE_CHANGED 0 .READY_COMMIT reqPrep).effs ∧
    2 ∉ coordinatorIds envPrimary.topo := by
  decide

/-- C7 (amended): on the outer-level `STATE_CHANGED`/`READY_COMMIT` path, the
global primary sends the COMMIT to the communicator's entire roster (every
replica, via broadcast-all), and a non-primary replica sends no COMMIT at
all. (When QC signing is enabled it must succeed for the send to happen.) -/
theorem prepare_outer_commit_broadcast (env : Env) (dup : DupState)
    (need_qc has_verifier sign_ok : Bool)
    (highest_prepared : Nat) (acm_ret : Int) (req : Request)
    (hin : ¬(NodesInSameShard env.topo req.sender_id env.self_id = false ∧
             env.self_id ≠ GetPrimaryOfNode env.topo env.self_id))
    (hrec : req.is_recovery = false)
    (hqc : need_qc = true → has_verifier = true → sign_ok = true) :
    (env.self_id = env.current_primary →
      destsOfType env.roster .COMMIT
        (ProcessPrepareMsg env dup true need_qc has_verifier sign_ok
          highest_prepared .STATE_CHANGED acm_ret .READY_COMMIT req).effs =
        env.roster) ∧
    (env.self_id ≠ env.current_primary →
      destsOfType env.roster .COMMIT
        (ProcessPrepareMsg env dup true need_qc has_verifier sign_ok
          highest_prepared .STATE_CHANGED acm_ret .READY_COMMIT req).effs =
        []) := by
  constructor
  · intro hpe
    simp only [ProcessPrepareMsg, if_neg hin, hrec]
    rw [if_neg (by simp)]
    simp only [Bool.false_eq_true, if_false]
    cases need_qc with
    | false =>
        simp only [Bool.false_eq_true, false_and, if_false, if_neg
          (by simp : ¬ (False ∧ has_verifier = true ∧ sign_ok = false))]
        by_cases hhp : highest_prepared < req.seq <;>
          simp [hhp, hpe, destsOfType, NewRequest]
    | true =>
        cases has_verifier with
        | false =>
            by_cases hhp : highest_prepared < req.seq <;>
              simp [hhp, hpe, destsOfType, NewRequest]
        | true =>
            have hs : sign_ok = true := hqc rfl rfl
            subst hs
            by_cases hhp : highest_prepared < req.seq <;>
              simp [hhp, hpe, destsOfType, NewRequest]
  · intro hpe
    simp only [ProcessPrepareMsg, if_neg hin, hrec]
    rw [if_neg (by simp)]
    simp only [Bool.false_eq_true, if_false]
    cases need_qc with
    | false =>
        by_cases hhp : highest_prepared < req.seq <;>
          simp [hhp, hpe, destsOfType, NewRequest]
    | true =>
        cases has_verifier with
        | false =>
            by_cases hhp : highest_prepared < req.seq <;>
              simp [hhp, hpe, destsOfType, NewRequest]
        | true =>
            have hs : sign_ok = true := hqc rfl rfl
            subst hs
            by_cases hhp : highest_prepared < req.seq <;>
              simp [hhp, hpe, destsOfType, NewRequest]

/-- Witness for C7 (amended): the global primary's COMMIT goes to the whole
roster `[1, 2, 3, 4]`. -/
theorem prepare_outer_commit_broadcast_witness :
    destsOfType envPrimary.roster .COMMIT
      (ProcessPrepareMsg envPrimary dup0 true false false false 0
        .STATE_CHANGED 0 .READY_COMMIT reqPrep).effs = envPrimary.roster :=
  (prepare_outer_commit_broadcast envPrimary dup0 false false false 0 0 reqPrep
    (by decide) (by decide) (by decide)).1 (by decide)

/-! ### C8: inner-level PREPARE broadcast in `ProcessProposeMsg` -/

/-- C8: at the failing input (coordinator 1 of the one-shard topology
`{1, 2}`, its own PRE_PREPARE, `STATE_CHANGED` at the inner level) the
source's loop bound `GetShardOfNode(GetShardSize(GetShardOfNode(self)))`
evaluates to 0, so no PREPARE at all is emitted although the shard has
members `[1, 2]`. -/
theorem propose_inner_prepare_empty_broadcast :
    (ProcessProposeMsg envInner dup0 false true true true 0
      .STATE_CHANGED 0 .READY_COMMIT reqOwnPP).effs = [.addConsensus reqOwnPP] ∧
    GetNodesInShard envInner.topo
      (GetShardOfNode envInner.topo envInner.self_id) = [1, 2] := by
  decide

end ResDB
